import Mathlib

/-!
Verification development for the terminal-control core of the kilo editor
(src/kilo.c). Each C function relevant to the frozen claims is shallowly
embedded as an executable Lean definition over byte lists (bytes are `Nat`
values 0..255) and explicit state; reads from the terminal are modelled by
consuming a `List Nat` input stream, where the end of the list stands for a
read timeout (`VMIN = 0`, `VTIME = 1` raw-mode semantics). C `int` values are
modelled as `Int`; overflow never matters at the magnitudes involved.
-/

/-- Byte list of a string literal (ASCII escape sequences included). -/
def bytes (s : String) : List Nat := s.toList.map Char.toNat

/-! ## Key decoder: `editorReadKey` (src/kilo.c lines 264-291)

The C function blocks until one byte arrives, then, on `0x1b`, attempts two
further timeout-bounded reads (`seq[0]`, `seq[1]`) before inspecting them.
The returned `int` is either the literal byte, one of the `editorKey` enum
values `ARROW_LEFT = 1000`, `ARROW_RIGHT = 1001`, `ARROW_UP = 1002`,
`ARROW_DOWN = 1003`, or the bare escape `0x1b = 27`.

Model: `editorReadKey stream = some (event, remaining)`; `none` means the
stream is exhausted before the first byte (the C loop would block forever).
A failed (timed-out) `read` of `seq[0]` or `seq[1]` corresponds to the
stream running out at that point. -/
def editorReadKey : List Nat → Option (Nat × List Nat)
  | [] => none
  | c :: rest =>
    if c = 27 then
      match rest with
      | [] => some (27, [])
      | s0 :: rest1 =>
        match rest1 with
        | [] => some (27, [])
        | s1 :: rest2 =>
          if s0 = 91 then
            if s1 = 65 then some (1002, rest2)
            else if s1 = 66 then some (1003, rest2)
            else if s1 = 67 then some (1001, rest2)
            else if s1 = 68 then some (1000, rest2)
            else some (27, rest2)
          else some (27, rest2)
    else some (c, rest)

/-- Fuel-indexed repeated decoding of a whole input stream. -/
def decodeAllF : Nat → List Nat → List Nat
  | 0, _ => []
  | Nat.succ n, s =>
    match editorReadKey s with
    | none => []
    | some (e, r) => e :: decodeAllF n r

/-- List of key events obtained by running `editorReadKey` over the whole
stream (each call consumes at least one byte, so `s.length` fuel suffices). -/
def decodeAll (s : List Nat) : List Nat := decodeAllF s.length s

theorem editorReadKey_len (s : List Nat) (e : Nat) (r : List Nat)
    (h : editorReadKey s = some (e, r)) : r.length < s.length := by
  match s with
  | [] => simp [editorReadKey] at h
  | [c] =>
    simp only [editorReadKey] at h
    split at h <;> simp_all
  | [c, s0] =>
    simp only [editorReadKey] at h
    split at h <;> simp_all
  | c :: s0 :: s1 :: rest2 =>
    simp only [editorReadKey] at h
    split at h <;> (try split at h) <;> (try split at h) <;>
      (try split at h) <;> (try split at h) <;> (try split at h) <;>
      simp_all <;> omega

theorem decodeAllF_fuel (n : Nat) : ∀ (m : Nat) (s : List Nat),
    s.length ≤ n → s.length ≤ m → decodeAllF n s = decodeAllF m s := by
  induction n with
  | zero =>
    intro m s hn _
    have hs : s = [] := List.eq_nil_of_length_eq_zero (Nat.le_zero.mp hn)
    subst hs
    cases m <;> simp [decodeAllF, editorReadKey]
  | succ n ih =>
    intro m s hn hm
    match s with
    | [] => cases m <;> simp [decodeAllF, editorReadKey]
    | c :: rest =>
      match m with
      | 0 => simp at hm
      | Nat.succ m =>
        simp only [decodeAllF]
        match hk : editorReadKey (c :: rest) with
        | none => rfl
        | some (e, r) =>
          have hlen := editorReadKey_len _ _ _ hk
          simp only [List.length_cons] at hn hm hlen
          have h1 : r.length ≤ n := by omega
          have h2 : r.length ≤ m := by omega
          simp only []
          rw [ih m r h1 h2]

theorem decodeAll_step (s : List Nat) (e : Nat) (r : List Nat)
    (h : editorReadKey s = some (e, r)) : decodeAll s = e :: decodeAll r := by
  match s with
  | [] => simp [editorReadKey] at h
  | c :: rest =>
    have hlen := editorReadKey_len _ _ _ h
    simp only [List.length_cons] at hlen
    unfold decodeAll
    simp only [List.length_cons, decodeAllF, h]
    rw [decodeAllF_fuel rest.length r.length r (by omega) (by omega)]

theorem decodeAll_no_escape : ∀ (s : List Nat), (∀ b ∈ s, b ≠ 27) →
    decodeAll s = s := by
  intro s
  induction s with
  | nil => intro _; rfl
  | cons c rest ih =>
    intro hall
    have hc : c ≠ 27 := hall c (List.mem_cons_self _ _)
    have hkey : editorReadKey (c :: rest) = some (c, rest) := by
      simp [editorReadKey, hc]
    rw [decodeAll_step _ _ _ hkey,
      ih (fun b hb => hall b (List.mem_cons_of_mem _ hb))]

/-! ## Window geometry resolver: `getCursorPosition`, `getWindowSize`
(src/kilo.c lines 304-326 and 348-360)

`getCursorPosition` reads the terminal's cursor-position report into a
32-byte C buffer: the read loop runs while `i < sizeof(buf) - 1 = 31`,
stops early on a read failure or on reading the byte `'R' = 82` (which is
then overwritten by the string terminator), and the accumulated C string is
checked for the `ESC [` prefix and parsed with `sscanf("%d;%d")`. -/

/-- Whitespace test of C `sscanf` conversion skipping (space and `\t \n \v \f \r`). -/
def isSpaceByte (b : Nat) : Bool := b = 32 || (9 ≤ b && b ≤ 13)

/-- ASCII digit test. -/
def isDigitByte (b : Nat) : Bool := 48 ≤ b && b ≤ 57

/-- Value of a run of ASCII digits. -/
def digitsToInt (ds : List Nat) : Int :=
  Int.ofNat (ds.foldl (fun a b => a * 10 + (b - 48)) 0)

/-- One `%d` conversion of `sscanf`: skip whitespace, optional sign, then a
nonempty maximal digit run; `none` on matching failure. -/
def parseIntFrom (s : List Nat) : Option (Int × List Nat) :=
  match s.dropWhile isSpaceByte with
  | 45 :: r =>
    if r.takeWhile isDigitByte = [] then none
    else some (-(digitsToInt (r.takeWhile isDigitByte)), r.dropWhile isDigitByte)
  | 43 :: r =>
    if r.takeWhile isDigitByte = [] then none
    else some (digitsToInt (r.takeWhile isDigitByte), r.dropWhile isDigitByte)
  | s1 =>
    if s1.takeWhile isDigitByte = [] then none
    else some (digitsToInt (s1.takeWhile isDigitByte), s1.dropWhile isDigitByte)

/-- `sscanf(buf, "%d;%d", ...)`: two `%d` conversions separated by a literal
`;` that must match exactly; `some` iff the return value is 2. -/
def sscanf2 (s : List Nat) : Option (Int × Int) :=
  match parseIntFrom s with
  | none => none
  | some (a, r1) =>
    match r1 with
    | 59 :: r2 =>
      match parseIntFrom r2 with
      | none => none
      | some (b, _) => some (a, b)
    | _ => none

/-- The response-reading loop of `getCursorPosition`: with `n` reads of
budget left, returns the accumulated bytes (the terminating `'R' = 82` is
read but not accumulated, matching its overwrite by `'\0'`) and the
unconsumed remainder of the stream. -/
def readLoop : Nat → List Nat → List Nat × List Nat
  | 0, s => ([], s)
  | _ + 1, [] => ([], [])
  | n + 1, b :: rest =>
    if b = 82 then ([], rest)
    else
      let p := readLoop n rest
      (b :: p.1, p.2)

/-- Prefix check and `sscanf` parse of the accumulated response buffer. The
C code inspects the raw bytes `buf[0]`, `buf[1]` and hands `&buf[2]` to
`sscanf`, which sees the C string truncated at the first embedded NUL. -/
def parseResp (buf : List Nat) : Option (Int × Int) :=
  match buf with
  | b0 :: b1 :: t =>
    if b0 = 27 ∧ b1 = 91 then sscanf2 (t.takeWhile (fun b => b != 0)) else none
  | _ => none

/-- `getCursorPosition` on an input stream: result (`some (rows, cols)` for
a 0 return, `none` for -1) paired with the unconsumed input stream. -/
def getCursorPosition (s : List Nat) : Option (Int × Int) × List Nat :=
  (parseResp (readLoop 31 s).1, (readLoop 31 s).2)

/-- Modelled from the spec: the claim states the response reader stops "at
the terminating R or after a fixed budget of 32 bytes"; this variant of
`getCursorPosition` reads with that 32-byte budget, for comparison with the
source's 31-byte read loop. -/
def getCursorPositionSpec (s : List Nat) : Option (Int × Int) × List Nat :=
  (parseResp (readLoop 32 s).1, (readLoop 32 s).2)

/-- `getWindowSize`: `ioctlRes` models the `TIOCGWINSZ` result
(`none` = call errored, `some (ws_row, ws_col)` otherwise), `writeOk` models
success of writing the `ESC [999C ESC [999B` probe, and `s` is the input
stream available to the fallback. Result is paired with the unconsumed
stream. -/
def getWindowSize (ioctlRes : Option (Int × Int)) (writeOk : Bool)
    (s : List Nat) : Option (Int × Int) × List Nat :=
  match ioctlRes with
  | some (r, c) =>
    if c = 0 then (if writeOk then getCursorPosition s else (none, s))
    else (some (r, c), s)
  | none => if writeOk then getCursorPosition s else (none, s)

/-! ## Editor state and key dispatch (src/kilo.c lines 538-607)

`EditorConfig` mirrors `struct editorConfig` (terminal attributes are
modelled separately for the raw-mode claims). Fields are `Int`, matching the
C `int` fields. -/

structure EditorConfig where
  cx : Int
  cy : Int
  screenrows : Int
  screencols : Int
deriving DecidableEq

/-- `initEditor`, given the geometry the resolver returned. -/
def initEditor (rows cols : Int) : EditorConfig :=
  { cx := 0, cy := 0, screenrows := rows, screencols := cols }

/-- `editorMoveCursor` (keys are the decoder's event values:
1000 = left, 1001 = right, 1002 = up, 1003 = down). -/
def editorMoveCursor (cfg : EditorConfig) (key : Nat) : EditorConfig :=
  if key = 1000 then
    (if cfg.cx ≠ 0 then { cfg with cx := cfg.cx - 1 } else cfg)
  else if key = 1001 then
    (if cfg.cx ≠ cfg.screencols - 1 then { cfg with cx := cfg.cx + 1 } else cfg)
  else if key = 1002 then
    (if cfg.cy ≠ 0 then { cfg with cy := cfg.cy - 1 } else cfg)
  else if key = 1003 then
    (if cfg.cy ≠ cfg.screenrows - 1 then { cfg with cy := cfg.cy + 1 } else cfg)
  else cfg

/-- Outcome of one `editorProcessKeypress` dispatch: either the loop
continues with an updated state, or the process exits, emitting `out` on
stdout and terminating with the given status code. -/
inductive KeyAction where
  | cont (cfg : EditorConfig)
  | quit (out : List Nat) (code : Nat)
deriving DecidableEq

/-- `editorProcessKeypress` on an already-decoded key event.
`CTRL_KEY('q') = 0x71 &&& 0x1f = 17`. -/
def editorProcessKeypress (cfg : EditorConfig) (c : Nat) : KeyAction :=
  if c = 17 then
    KeyAction.quit (bytes "\x1b[2J" ++ bytes "\x1b[H") 0
  else if c = 1002 ∨ c = 1003 ∨ c = 1000 ∨ c = 1001 then
    KeyAction.cont (editorMoveCursor cfg c)
  else
    KeyAction.cont cfg

/-- The dispatch part of the `main` loop over a list of decoded key events:
`some (out, code)` when a dispatch exits the process (later events are never
looked at), `none` when the supplied events run out first. -/
def runLoop : EditorConfig → List Nat → Option (List Nat × Nat)
  | _, [] => none
  | cfg, k :: rest =>
    match editorProcessKeypress cfg k with
    | KeyAction.quit out code => some (out, code)
    | KeyAction.cont cfg2 => runLoop cfg2 rest

/-- `die`: clears the screen, homes the cursor (the diagnostic itself goes
to stderr) and exits with status 1. Modelled as (stdout bytes, exit code). -/
def die (_msg : String) : List Nat × Nat :=
  (bytes "\x1b[2J" ++ bytes "\x1b[H", 1)

/-! ## Terminal mode controller (src/kilo.c lines 97-100 and 117-255) -/

/-- Model of `struct termios`: the four flag words and the two `c_cc` slots
the program touches. -/
structure Termios where
  c_iflag : Nat
  c_oflag : Nat
  c_cflag : Nat
  c_lflag : Nat
  cc_vmin : Nat
  cc_vtime : Nat
deriving DecidableEq

/-- Clear the bits of `mask` in `x` (the C idiom `x &= ~mask`; on `Nat`,
`x &&& mask` is a bitwise subset of `x`, so subtraction clears exactly those
bits). -/
def clearBits (x mask : Nat) : Nat := x - (x &&& mask)

/-- The modified attribute set `raw` computed by `enableRawMode` from the
captured attributes, with the glibc/Linux flag constants:
`BRKINT|ICRNL|INPCK|ISTRIP|IXON` off, `OPOST` off, `CS8` on,
`ECHO|ICANON|IEXTEN|ISIG` off, `VMIN = 0`, `VTIME = 1`. -/
def rawAttributes (t : Termios) : Termios :=
  { c_iflag := clearBits t.c_iflag (0x2 ||| 0x100 ||| 0x10 ||| 0x20 ||| 0x400)
  , c_oflag := clearBits t.c_oflag 0x1
  , c_cflag := t.c_cflag ||| 0x30
  , c_lflag := clearBits t.c_lflag (0x8 ||| 0x2 ||| 0x8000 ||| 0x1)
  , cc_vmin := 0
  , cc_vtime := 1 }

/-- Terminal-relevant process state: the device's current attributes and the
global `E.orig_termios` slot (zero-initialized static storage before any
capture). -/
structure TermSys where
  attrs : Termios
  orig : Termios
deriving DecidableEq

/-- `enableRawMode`: `tcgetattr` captures the current attributes into
`E.orig_termios`, then `tcsetattr` applies the modified set. -/
def enableRawMode (s : TermSys) : TermSys :=
  { attrs := rawAttributes s.attrs, orig := s.attrs }

/-- `disableRawMode`: `tcsetattr(STDIN_FILENO, TCSAFLUSH, &E.orig_termios)`. -/
def disableRawMode (s : TermSys) : TermSys :=
  { s with attrs := s.orig }

/-! ## Append buffer (src/kilo.c lines 393-401) -/

/-- `abAppend`: `allocOk` models whether `realloc` succeeds; on failure the
function returns with the buffer untouched. -/
def abAppend (allocOk : Bool) (ab : List Nat) (s : List Nat) : List Nat :=
  if allocOk then ab ++ s else ab

/-! ## Screen renderer: `editorDrawRows`, `editorRefreshScreen`
(src/kilo.c lines 436-463 and 490-506)

Rendering is modelled on the success path of `realloc` (`abAppend true`);
the claim about allocation failure is settled separately on `abAppend`. -/

/-- The banner `snprintf` formats: `"Kilo editor -- version 0.0.1"`
(28 characters, well under the 80-byte buffer, so `welcomelen` is exactly
this length before clamping). -/
def welcomeMsg : List Nat := bytes "Kilo editor -- version 0.0.1"

/-- The clamped `welcomelen`: `if (welcomelen > E.screencols) welcomelen =
E.screencols`. -/
def welcomeLen (cols : Int) : Int :=
  if (welcomeMsg.length : Int) > cols then cols else (welcomeMsg.length : Int)

/-- Body of one iteration of the `editorDrawRows` loop before the
erase-to-end-of-line append: banner row at `y == E.screenrows / 3`, a tilde
otherwise. -/
def drawRow (rows cols : Int) (y : Int) (ab : List Nat) : List Nat :=
  if y = rows / 3 then
    let welcomelen := welcomeLen cols
    let padding := (cols - welcomelen) / 2
    let ab1 := if padding ≠ 0 then abAppend true ab [126] else ab
    let padding1 := if padding ≠ 0 then padding - 1 else padding
    let ab2 := abAppend true ab1 (List.replicate padding1.toNat 32)
    abAppend true ab2 (welcomeMsg.take welcomelen.toNat)
  else abAppend true ab [126]

/-- `editorDrawRows`: appends every screen row to the buffer, each followed
by `ESC [K`, with `\r\n` after every row but the last. -/
def editorDrawRows (cfg : EditorConfig) (ab : List Nat) : List Nat :=
  (List.range cfg.screenrows.toNat).foldl (fun ab y =>
    let ab1 := drawRow cfg.screenrows cfg.screencols (Int.ofNat y) ab
    let ab2 := abAppend true ab1 (bytes "\x1b[K")
    if Int.ofNat y < cfg.screenrows - 1 then abAppend true ab2 (bytes "\r\n")
    else ab2) ab

/-- The cursor-reposition sequence `snprintf(buf, "\x1b[%d;%dH", E.cy + 1,
E.cx + 1)` (for C `int` arguments the formatted string is at most 24 bytes,
so the 32-byte buffer never truncates). -/
def cursorPosSeq (row col : Int) : List Nat :=
  bytes "\x1b[" ++ bytes (toString row) ++ bytes ";" ++ bytes (toString col)
    ++ bytes "H"

/-- `editorRefreshScreen`: stages the whole frame in one append buffer —
hide cursor, home, rows, reposition, show cursor — which is then written to
stdout in a single `write` and freed. The returned list is that one write. -/
def editorRefreshScreen (cfg : EditorConfig) : List Nat :=
  let ab0 : List Nat := []
  let ab1 := abAppend true ab0 (bytes "\x1b[?25l")
  let ab2 := abAppend true ab1 (bytes "\x1b[H")
  let ab3 := editorDrawRows cfg ab2
  let ab4 := abAppend true ab3 (cursorPosSeq (cfg.cy + 1) (cfg.cx + 1))
  abAppend true ab4 (bytes "\x1b[?25h")

/-- Contents of one screen row as a standalone byte list (used to state the
layout claims; `drawRow` is proved to append exactly this). -/
def rowBody (rows cols : Int) (y : Int) : List Nat :=
  if y = rows / 3 then
    (if (cols - welcomeLen cols) / 2 ≠ 0 then [126] else [])
      ++ List.replicate ((cols - welcomeLen cols) / 2 - 1).toNat 32
      ++ welcomeMsg.take (welcomeLen cols).toNat
  else [126]

/-- One row plus its trailing erase-to-end-of-line and (except on the last
row) `\r\n` separator. -/
def rowOut (cfg : EditorConfig) (y : Nat) : List Nat :=
  rowBody cfg.screenrows cfg.screencols (Int.ofNat y) ++ bytes "\x1b[K"
    ++ (if Int.ofNat y < cfg.screenrows - 1 then bytes "\r\n" else [])

/-! ## Helper lemmas -/

theorem drawRow_eq (rows cols y : Int) (ab : List Nat) :
    drawRow rows cols y ab = ab ++ rowBody rows cols y := by
  unfold drawRow rowBody abAppend
  by_cases hy : y = rows / 3
  · by_cases hp : (cols - welcomeLen cols) / 2 ≠ 0
    · simp [hy, hp, List.append_assoc]
    · push_neg at hp
      simp [hy, hp, List.append_assoc]
  · simp [hy]

theorem editorDrawRows_aux (cfg : EditorConfig) : ∀ (l : List Nat) (ab : List Nat),
    (l.foldl (fun ab y =>
      let ab1 := drawRow cfg.screenrows cfg.screencols (Int.ofNat y) ab
      let ab2 := abAppend true ab1 (bytes "\x1b[K")
      if Int.ofNat y < cfg.screenrows - 1 then abAppend true ab2 (bytes "\r\n")
      else ab2) ab) = ab ++ l.flatMap (rowOut cfg) := by
  intro l
  induction l with
  | nil => intro ab; simp
  | cons y l ih =>
    intro ab
    simp only [List.foldl_cons, List.flatMap_cons]
    rw [ih]
    unfold rowOut
    by_cases hc : Int.ofNat y < cfg.screenrows - 1
    · simp only [if_pos hc]
      simp [drawRow_eq, abAppend, List.append_assoc]
    · simp only [if_neg hc]
      simp [drawRow_eq, abAppend, List.append_assoc]

theorem editorDrawRows_spec (cfg : EditorConfig) (ab : List Nat) :
    editorDrawRows cfg ab = ab ++ (List.range cfg.screenrows.toNat).flatMap (rowOut cfg) := by
  unfold editorDrawRows
  exact editorDrawRows_aux cfg (List.range cfg.screenrows.toNat) ab

theorem editorRefreshScreen_spec (cfg : EditorConfig) :
    editorRefreshScreen cfg =
      bytes "\x1b[?25l" ++ bytes "\x1b[H"
        ++ (List.range cfg.screenrows.toNat).flatMap (rowOut cfg)
        ++ cursorPosSeq (cfg.cy + 1) (cfg.cx + 1) ++ bytes "\x1b[?25h" := by
  simp [editorRefreshScreen, abAppend, editorDrawRows_spec, List.append_assoc]

theorem readLoop_stop (p : List Nat) : ∀ (n : Nat) (rest : List Nat),
    (∀ b ∈ p, b ≠ 82) → p.length < n → readLoop n (p ++ 82 :: rest) = (p, rest) := by
  induction p with
  | nil =>
    intro n rest _ hn
    cases n with
    | zero => omega
    | succ m => simp [readLoop]
  | cons b p ih =>
    intro n rest hall hn
    cases n with
    | zero => simp at hn
    | succ m =>
      have hb : b ≠ 82 := hall b (List.mem_cons_self _ _)
      simp only [List.cons_append, readLoop, hb, if_neg, ite_false, List.append_eq]
      rw [ih m rest (fun x hx => hall x (List.mem_cons_of_mem _ hx)) (by simpa using hn)]

theorem readLoop_budget : ∀ (n : Nat) (s : List Nat), n ≤ s.length →
    (∀ b ∈ s.take n, b ≠ 82) → readLoop n s = (s.take n, s.drop n) := by
  intro n
  induction n with
  | zero => intro s _ _; simp [readLoop]
  | succ m ih =>
    intro s hn hall
    match s with
    | [] => simp at hn
    | b :: rest =>
      have hb : b ≠ 82 := hall b (by simp)
      simp only [readLoop, hb, if_neg, ite_false, List.take_succ_cons,
        List.drop_succ_cons]
      rw [ih rest (by simpa using hn)
        (fun x hx => hall x (by simp [List.take_succ_cons]; exact Or.inr hx))]

/-- Claim C1 (counterexample): the claim states that when the byte after
`0x1b` is not `'['`, the bare-escape event is emitted with no additional
input bytes consumed. On the stream `0x1b 'x' 'y'` the code also reads and
discards `'y'` (`seq[1]` is read before `seq[0]` is inspected), so the
remaining stream is empty rather than `['y']`. -/
theorem readKey_nonbracket_consumes_extra :
    editorReadKey [27, 120, 121] = some (27, []) ∧
    editorReadKey [27, 120, 121] ≠ some (27, [121]) := by
  decide

/-- Claim C1 (amended): in the EscapeSeen state, a read timeout yields
exactly one bare-escape event with nothing further consumed; when the next
byte is not `'['`, the decoder additionally reads (and discards) one more
byte if one arrives within the timeout, then emits exactly one bare-escape
event; decoding always resumes statelessly on the remaining stream. -/
theorem escape_fallback_behavior :
    (editorReadKey [27] = some (27, [])) ∧
    (∀ x : Nat, editorReadKey [27, x] = some (27, [])) ∧
    (∀ (x y : Nat) (rest : List Nat), x ≠ 91 →
      editorReadKey (27 :: x :: y :: rest) = some (27, rest)) ∧
    (∀ (s : List Nat) (e : Nat) (r : List Nat),
      editorReadKey s = some (e, r) → decodeAll s = e :: decodeAll r) := by
  refine ⟨by decide, ?_, ?_, decodeAll_step⟩
  · intro x
    simp [editorReadKey]
  · intro x y rest hx
    simp [editorReadKey, hx]

/-- Claim C1 (witness): instance of the amended behavior at a concrete
stream. -/
theorem escape_fallback_behavior_witness :
    editorReadKey [27, 100, 101, 102] = some (27, [102]) :=
  escape_fallback_behavior.2.2.1 100 101 [102] (by decide)

/-- Claim C2 (counterexample): the claim states that any byte sequence not
starting with `0x1b` yields one literal-character event per byte in order,
but `['a', 0x1b, 'x']` does not start with `0x1b` and decodes to only two
events (the trailing `'x'` is swallowed by the escape handling). -/
theorem decode_midstream_escape_cex :
    decodeAll [97, 27, 120] = [97, 27] ∧
    decodeAll [97, 27, 120] ≠ [97, 27, 120] := by
  decide

/-- Claim C2 (amended): for every byte sequence containing no `0x1b` the
decoder emits one literal-character event per byte in input order; each
3-byte sequence `0x1b '[' X` with `X` in `A/B/C/D` yields exactly one
up/down/right/left event and decoding resumes at Idle on the rest; any
other byte following `0x1b '['` yields a single bare-escape event. -/
theorem decoder_event_mapping :
    (∀ s : List Nat, (∀ b ∈ s, b ≠ 27) → decodeAll s = s) ∧
    (∀ rest : List Nat, decodeAll (27 :: 91 :: 65 :: rest) = 1002 :: decodeAll rest) ∧
    (∀ rest : List Nat, decodeAll (27 :: 91 :: 66 :: rest) = 1003 :: decodeAll rest) ∧
    (∀ rest : List Nat, decodeAll (27 :: 91 :: 67 :: rest) = 1001 :: decodeAll rest) ∧
    (∀ rest : List Nat, decodeAll (27 :: 91 :: 68 :: rest) = 1000 :: decodeAll rest) ∧
    (∀ (x : Nat) (rest : List Nat), x ≠ 65 → x ≠ 66 → x ≠ 67 → x ≠ 68 →
      decodeAll (27 :: 91 :: x :: rest) = 27 :: decodeAll rest) := by
  refine ⟨decodeAll_no_escape, ?_, ?_, ?_, ?_, ?_⟩
  · intro rest
    exact decodeAll_step _ _ _ (by simp [editorReadKey])
  · intro rest
    exact decodeAll_step _ _ _ (by simp [editorReadKey])
  · intro rest
    exact decodeAll_step _ _ _ (by simp [editorReadKey])
  · intro rest
    exact decodeAll_step _ _ _ (by simp [editorReadKey])
  · intro x rest h65 h66 h67 h68
    exact decodeAll_step _ _ _ (by simp [editorReadKey, h65, h66, h67, h68])

/-- Claim C2 (witness): instances of the amended mapping at concrete
streams. -/
theorem decoder_event_mapping_witness :
    decodeAll [97, 98] = [97, 98] ∧ decodeAll [27, 91, 90] = [27] := by
  constructor
  · exact decoder_event_mapping.1 [97, 98] (by decide)
  · have h := decoder_event_mapping.2.2.2.2.2 90 [] (by decide) (by decide)
      (by decide) (by decide)
    simpa [decodeAll, decodeAllF] using h

set_option maxRecDepth 20000 in
/-- Claim C3: one render pass builds a single buffer in the exact order
cursor-hide, cursor-home, per-row content each followed by erase-to-end-of-
line with `\r\n` between rows (omitted after the last), cursor reposition to
`(cy+1, cx+1)` (1-indexed), cursor-show; and for a fresh start on a 24x80
terminal the banner row is centered at row index 8 = 24/3, every other row
is a tilde, and the cursor is repositioned to `(1,1)`. -/
theorem refresh_frame_layout :
    (∀ cfg : EditorConfig, editorRefreshScreen cfg =
      bytes "\x1b[?25l" ++ bytes "\x1b[H"
        ++ (List.range cfg.screenrows.toNat).flatMap (rowOut cfg)
        ++ cursorPosSeq (cfg.cy + 1) (cfg.cx + 1) ++ bytes "\x1b[?25h") ∧
    (editorRefreshScreen (initEditor 24 80) =
      bytes "\x1b[?25l" ++ bytes "\x1b[H"
        ++ (List.range 24).flatMap (fun y =>
            (if y = 8 then [126] ++ List.replicate 25 32 ++ welcomeMsg else [126])
              ++ bytes "\x1b[K" ++ (if y < 23 then bytes "\r\n" else []))
        ++ bytes "\x1b[1;1H" ++ bytes "\x1b[?25h") ∧
    (rowBody 24 80 8 = [126] ++ List.replicate 25 32 ++ welcomeMsg) ∧
    (∀ y : Int, y ≠ 8 → rowBody 24 80 y = bytes "~") := by
  refine ⟨editorRefreshScreen_spec, by decide, by decide, ?_⟩
  intro y hy
  have h8 : (24 : Int) / 3 = 8 := by decide
  simp [rowBody, h8, hy, bytes]

/-- Claim C3 (witness): a non-banner row of the fresh 24x80 frame is a
single tilde. -/
theorem refresh_frame_layout_witness : rowBody 24 80 9 = bytes "~" :=
  refresh_frame_layout.2.2.2 9 (by decide)

/-- The cursor-bounds invariant of the spec: `0 <= cx < screencols` and
`0 <= cy < screenrows`. -/
def cursorInBounds (cfg : EditorConfig) : Prop :=
  0 ≤ cfg.cx ∧ cfg.cx < cfg.screencols ∧ 0 ≤ cfg.cy ∧ cfg.cy < cfg.screenrows

instance (cfg : EditorConfig) : Decidable (cursorInBounds cfg) := by
  unfold cursorInBounds
  infer_instance

theorem editorMoveCursor_preserves (cfg : EditorConfig) (key : Nat)
    (h : cursorInBounds cfg) : cursorInBounds (editorMoveCursor cfg key) := by
  obtain ⟨h1, h2, h3, h4⟩ := h
  unfold editorMoveCursor cursorInBounds
  split_ifs <;> simp_all <;> omega

/-- Claim C4: after initialization the cursor is in bounds, every key
dispatch that continues the loop preserves the bounds invariant, and each
boundary move (left at column 0, right at the last column, up at row 0,
down at the last row) leaves the respective coordinate unchanged. -/
theorem cursor_invariant_and_boundaries :
    (∀ rows cols : Int, 0 < rows → 0 < cols → cursorInBounds (initEditor rows cols)) ∧
    (∀ (cfg : EditorConfig) (key : Nat), cursorInBounds cfg →
      cursorInBounds (editorMoveCursor cfg key)) ∧
    (∀ (cfg : EditorConfig) (key : Nat) (cfg2 : EditorConfig), cursorInBounds cfg →
      editorProcessKeypress cfg key = KeyAction.cont cfg2 → cursorInBounds cfg2) ∧
    (∀ cfg : EditorConfig, cfg.cx = 0 → (editorMoveCursor cfg 1000).cx = 0) ∧
    (∀ cfg : EditorConfig, cfg.cx = cfg.screencols - 1 →
      (editorMoveCursor cfg 1001).cx = cfg.cx) ∧
    (∀ cfg : EditorConfig, cfg.cy = 0 → (editorMoveCursor cfg 1002).cy = 0) ∧
    (∀ cfg : EditorConfig, cfg.cy = cfg.screenrows - 1 →
      (editorMoveCursor cfg 1003).cy = cfg.cy) := by
  refine ⟨?_, editorMoveCursor_preserves, ?_, ?_, ?_, ?_, ?_⟩
  · intro rows cols hr hc
    exact ⟨le_refl 0, hc, le_refl 0, hr⟩
  · intro cfg key cfg2 hinv heq
    unfold editorProcessKeypress at heq
    split_ifs at heq
    · exact (KeyAction.cont.inj heq) ▸ editorMoveCursor_preserves cfg key hinv
    · exact (KeyAction.cont.inj heq) ▸ hinv
  · intro cfg h
    simp [editorMoveCursor, h]
  · intro cfg h
    simp [editorMoveCursor, h]
  · intro cfg h
    simp [editorMoveCursor, h]
  · intro cfg h
    simp [editorMoveCursor, h]

/-- Claim C4 (witness): the invariant and boundary no-ops at a concrete
fresh 24x80 state. -/
theorem cursor_invariant_and_boundaries_witness :
    cursorInBounds (initEditor 24 80) ∧
    (editorMoveCursor (initEditor 24 80) 1000).cx = 0 :=
  ⟨cursor_invariant_and_boundaries.1 24 80 (by decide) (by decide),
   cursor_invariant_and_boundaries.2.2.2.1 (initEditor 24 80) rfl⟩

/-- Claim C5: the geometry resolver attempts the fallback exactly when the
primary query errors or reports zero columns; a well-formed simulated
response `ESC [24;80R` makes the fallback return rows=24, cols=80; and a
primary success with nonzero columns is returned directly. -/
theorem window_size_resolution :
    (∀ s : List Nat, getWindowSize none true s = getCursorPosition s) ∧
    (∀ (r : Int) (s : List Nat),
      getWindowSize (some (r, 0)) true s = getCursorPosition s) ∧
    ((getCursorPosition (bytes "\x1b[24;80R")).1 = some (24, 80)) ∧
    (getWindowSize none true (bytes "\x1b[24;80R") = (some (24, 80), [])) ∧
    (∀ (r c : Int) (w : Bool) (s : List Nat), c ≠ 0 →
      getWindowSize (some (r, c)) w s = (some (r, c), s)) := by
  refine ⟨?_, ?_, by decide, by decide, ?_⟩
  · intro s
    simp [getWindowSize]
  · intro r s
    simp [getWindowSize]
  · intro r c w s hc
    simp [getWindowSize, hc]

/-- Claim C5 (witness): the primary strategy with nonzero columns returns
its own report. -/
theorem window_size_resolution_witness :
    getWindowSize (some (24, 80)) true [] = (some (24, 80), []) :=
  window_size_resolution.2.2.2.2 24 80 true [] (by decide)

/-- Stream on which the 31-byte read loop of the source and the 32-byte
budget stated by the claim disagree: a well-formed response whose final
digit is the 32nd byte and whose terminating `R` is the 33rd. -/
def budgetCexStream : List Nat :=
  bytes "\x1b[1;" ++ List.replicate 27 32 ++ bytes "8R"

/-- Claim C6 (counterexample): the code reads at most 31 response bytes
(`while (i < sizeof(buf) - 1)` with a 32-byte buffer), not 32 as the claim
states. On `budgetCexStream` the source's reader stops one byte short of
the cols digit and fails, while a reader with the claimed 32-byte budget
would parse rows=1, cols=8. -/
theorem cursor_position_budget_cex :
    getCursorPosition budgetCexStream = (none, [56, 82]) ∧
    getCursorPositionSpec budgetCexStream = (some (1, 8), [82]) ∧
    (getCursorPosition budgetCexStream).1 ≠ (getCursorPositionSpec budgetCexStream).1 := by
  decide

/-- Claim C6 (amended): the fallback strategy parses the response byte by
byte, stopping at the terminating `R` or after a fixed budget of 31 bytes
(a 32-byte buffer with one byte reserved for the string terminator); a
malformed accumulated response — missing the `ESC [` prefix or with
unparsable numeric fields — makes geometry resolution fail with no further
fallback. -/
theorem cursor_position_parse_budget :
    (∀ (p rest : List Nat), (∀ b ∈ p, b ≠ 82) → p.length ≤ 30 →
      (getCursorPosition (p ++ 82 :: rest)).2 = rest) ∧
    (∀ s : List Nat, 31 ≤ s.length → (∀ b ∈ s.take 31, b ≠ 82) →
      (getCursorPosition s).2 = s.drop 31) ∧
    (∀ s : List Nat, (readLoop 31 s).1.take 2 ≠ [27, 91] →
      (getCursorPosition s).1 = none) ∧
    (∀ (s t rem : List Nat), readLoop 31 s = (27 :: 91 :: t, rem) →
      sscanf2 (t.takeWhile (fun b => b != 0)) = none →
      (getCursorPosition s).1 = none) ∧
    (∀ s : List Nat, (getCursorPosition s).1 = none →
      (getWindowSize none true s).1 = none) := by
  refine ⟨?_, ?_, ?_, ?_, ?_⟩
  · intro p rest hall hlen
    unfold getCursorPosition
    rw [readLoop_stop p 31 rest hall (by omega)]
  · intro s hlen hall
    unfold getCursorPosition
    rw [readLoop_budget 31 s hlen hall]
  · intro s hne
    unfold getCursorPosition parseResp
    match hb : (readLoop 31 s).1 with
    | [] => rfl
    | [a] => rfl
    | a :: b :: t =>
      rw [hb] at hne
      simp only [List.take] at hne
      have hab : ¬(a = 27 ∧ b = 91) := by
        rintro ⟨rfl, rfl⟩
        exact hne rfl
      simp [hab]
  · intro s t rem hloop hparse
    unfold getCursorPosition
    rw [hloop]
    simpa [parseResp] using hparse
  · intro s h
    simpa [getWindowSize] using h

/-- Claim C6 (witness): a short well-formed response is consumed up to and
including its terminating `R`, leaving later input untouched. -/
theorem cursor_position_parse_budget_witness :
    (getCursorPosition (bytes "\x1b[9;9" ++ 82 :: [55])).2 = [55] :=
  cursor_position_parse_budget.1 (bytes "\x1b[9;9") [55] (by decide) (by decide)

/-- Claim C7: the control-modified `q` (byte 17) makes the dispatch emit
the full screen-clear plus cursor-home sequences and exit with status 0;
once seen, the loop never resumes no matter what input follows; every fatal
environment error (`die`) exits with status 1. -/
theorem quit_and_fatal_exit :
    (∀ cfg : EditorConfig, editorProcessKeypress cfg 17 =
      KeyAction.quit (bytes "\x1b[2J" ++ bytes "\x1b[H") 0) ∧
    (∀ (cfg : EditorConfig) (keys : List Nat),
      runLoop cfg (17 :: keys) = some (bytes "\x1b[2J" ++ bytes "\x1b[H", 0)) ∧
    (∀ msg : String, (die msg).2 = 1) := by
  refine ⟨?_, ?_, fun _ => rfl⟩
  · intro cfg
    simp [editorProcessKeypress]
  · intro cfg keys
    simp [runLoop, editorProcessKeypress]

/-- Claim C8: entering raw mode and then leaving it restores the captured
terminal attributes exactly; leaving raw mode is idempotent (a second call
reapplies the same captured attributes and cannot corrupt state) and total
even when raw mode was never entered, in which case it applies whatever the
zero-initialized capture slot holds without touching that slot. -/
theorem raw_mode_restore :
    (∀ s : TermSys, (disableRawMode (enableRawMode s)).attrs = s.attrs) ∧
    (∀ s : TermSys, disableRawMode (disableRawMode s) = disableRawMode s) ∧
    (∀ s : TermSys, (disableRawMode s).orig = s.orig) := by
  exact ⟨fun s => rfl, fun s => rfl, fun s => rfl⟩

/-- Claim C9: a successful append grows the buffer by exactly the appended
length, preserves all prior content in place and puts the new bytes after
it in order; a failed allocation leaves the buffer untouched (the append is
silently dropped and rendering continues). -/
theorem abuf_append_spec :
    (∀ ab s : List Nat, (abAppend true ab s).length = ab.length + s.length) ∧
    (∀ ab s : List Nat, (abAppend true ab s).take ab.length = ab) ∧
    (∀ ab s : List Nat, (abAppend true ab s).drop ab.length = s) ∧
    (∀ ab s : List Nat, abAppend false ab s = ab) := by
  refine ⟨?_, ?_, ?_, ?_⟩ <;> intro ab s <;>
    simp [abAppend, List.take_left, List.drop_left]

/-- Claim C10: a left/right arrow dispatch changes only `cx`; an up/down
arrow dispatch changes only `cy`; arrow dispatch goes through
`editorMoveCursor` and continues the loop; and any key other than an arrow
or the quit combination leaves the entire editor state unchanged. -/
theorem keypress_frame_conditions :
    (∀ (cfg : EditorConfig) (k : Nat), k = 1000 ∨ k = 1001 →
      (editorMoveCursor cfg k).cy = cfg.cy ∧
      (editorMoveCursor cfg k).screenrows = cfg.screenrows ∧
      (editorMoveCursor cfg k).screencols = cfg.screencols) ∧
    (∀ (cfg : EditorConfig) (k : Nat), k = 1002 ∨ k = 1003 →
      (editorMoveCursor cfg k).cx = cfg.cx ∧
      (editorMoveCursor cfg k).screenrows = cfg.screenrows ∧
      (editorMoveCursor cfg k).screencols = cfg.screencols) ∧
    (∀ (cfg : EditorConfig) (k : Nat), k = 1000 ∨ k = 1001 ∨ k = 1002 ∨ k = 1003 →
      editorProcessKeypress cfg k = KeyAction.cont (editorMoveCursor cfg k)) ∧
    (∀ (cfg : EditorConfig) (k : Nat), k ≠ 17 → k ≠ 1000 → k ≠ 1001 → k ≠ 1002 →
      k ≠ 1003 → editorProcessKeypress cfg k = KeyAction.cont cfg) := by
  refine ⟨?_, ?_, ?_, ?_⟩
  · rintro cfg k (rfl | rfl) <;>
      (unfold editorMoveCursor; split_ifs <;> simp_all)
  · rintro cfg k (rfl | rfl) <;>
      (unfold editorMoveCursor; split_ifs <;> simp_all)
  · rintro cfg k (rfl | rfl | rfl | rfl) <;> rfl
  · intro cfg k h17 h0 h1 h2 h3
    unfold editorProcessKeypress
    rw [if_neg h17, if_neg]
    rintro (rfl | rfl | rfl | rfl) <;> simp_all

/-- Claim C10 (witness): frame conditions at a concrete state and a
concrete non-arrow, non-quit key. -/
theorem keypress_frame_conditions_witness :
    (editorMoveCursor (initEditor 24 80) 1000).cy = (initEditor 24 80).cy ∧
    editorProcessKeypress (initEditor 24 80) 120 = KeyAction.cont (initEditor 24 80) :=
  ⟨(keypress_frame_conditions.1 (initEditor 24 80) 1000 (Or.inl rfl)).1,
   keypress_frame_conditions.2.2.2 (initEditor 24 80) 120 (by decide) (by decide)
     (by decide) (by decide) (by decide)⟩
